import Mathlib

/-!
Verification of the FlickrScraper repository (`flickrscraper.py`).

The development shallowly embeds the two components of the program:

* `ResponseHandler.__call__` (the admission handler registered with
  `page.on("response", ...)`) is embedded as `consider`.  External
  collaborators are abstracted: the image library (PIL) as an `ImageCodec`
  (its `Image.open` can fail, returning `none` where PIL raises, and
  `image.save` re-encodes the decoded image), and `hashlib.sha256(...)
  .hexdigest()` as an arbitrary function `hashHex : Bytes → String`.
  No claim depends on the internals of SHA-256, only on it being a
  deterministic function of the bytes.

* the exploration loop of `main` (lines 96-129) is embedded as `run`,
  driven by a stream of per-iteration page observations (`PageObs`) and an
  abstract deterministic pseudo-random generator (`RngImpl`, standing for
  `numpy.random.default_rng(seed)`).  The uncaught `TimeoutError` that
  `page.wait_for_load_state` raises on timeout is modelled as an `.error`
  that aborts the run, since `main` has no `try`/`except` around it.
-/

namespace FlickrScraper

/-- A raw byte string (a network response body); each entry stands for one
byte. -/
abbrev Bytes := List Nat

/-! ### The URL pattern

`re.match(r"https://live.staticflickr.com/.*", url)` in Python anchors at the
start of the string and succeeds on any prefix match.  In the regex, each `.`
matches an arbitrary character and the trailing `.*` matches anything
(including the empty string), so a match holds iff the URL is at least as long
as the literal part and agrees with it except at the two `.` positions. -/

/-- The literal part of the pattern `https://live.staticflickr.com/` with
`none` at the positions of the regex metacharacter `.` (which matches any
character). -/
def patternAtoms : List (Option Char) :=
  ("https://live".data.map some) ++ [none] ++
    ("staticflickr".data.map some) ++ [none] ++ ("com/".data.map some)

/-- Match a list of literal-or-wildcard atoms against a prefix of the
character list. -/
def matchAtoms : List (Option Char) → List Char → Bool
  | [], _ => true
  | _ :: _, [] => false
  | a :: ps, c :: cs =>
    (match a with
      | none => true
      | some x => x == c) && matchAtoms ps cs

/-- `re.match(r"https://live.staticflickr.com/.*", url)` as a Boolean: the
trailing `.*` always matches, so only the atoms before it constrain the
URL. -/
def reMatch (url : String) : Bool :=
  matchAtoms patternAtoms url.data

/-! ### The admission handler (`ResponseHandler`) -/

/-- The image library (PIL) at the interface the handler uses:
`Image.open(BytesIO(data))` is `decode` (PIL raises on undecodable data,
modelled by `none`); `image.size` is `(width, height)`; `image.save(path)`
with a `.jpg` path writes `encode image`, the library's re-encoding of the
decoded image. -/
structure ImageCodec (Img : Type) where
  decode : Bytes → Option Img
  width : Img → Nat
  height : Img → Nat
  encode : Img → Bytes

/-- The constructor arguments of `ResponseHandler` other than the logger. -/
structure HandlerConfig where
  save_directory : String
  min_image_size : Nat
  max_image_size : Nat
deriving DecidableEq, Repr

/-- The mutable state of a `ResponseHandler`: `self.scraped_image_hashes`.
The Python set is modelled as a duplicate-free list; the code only inserts a
hash after checking it absent, so consing preserves freedom from
duplicates. -/
structure HandlerState where
  scraped_image_hashes : List String
deriving DecidableEq, Repr

/-- `scrape_counter`: the cardinality of `scraped_image_hashes`. -/
def scrape_counter (s : HandlerState) : Nat :=
  s.scraped_image_hashes.length

/-- A Playwright response event at the interface `__call__` reads:
`request.method`, `request.url`, `response.headers.get("content-type")`
(`none` when the header is absent), and the body that `response.body()`
returns. -/
structure ResponseEvent where
  method : String
  url : String
  contentType : Option String
  body : Bytes
deriving DecidableEq, Repr

/-- What one call of the handler did: the updated state, whether
`response.body()` was invoked, and the file write it performed, if any
(path, bytes written). -/
structure ConsiderResult where
  state : HandlerState
  bodyFetched : Bool
  written : Option (String × Bytes)
deriving DecidableEq, Repr

/-- `ResponseHandler.__call__` (flickrscraper.py lines 33-57), translated
branch for branch.  `Image.open` raising on an undecodable body is the
`.error` case: the source has no `try`/`except`, so the exception escapes
the handler. -/
def consider {Img : Type} (codec : ImageCodec Img) (hashHex : Bytes → String)
    (cfg : HandlerConfig) (s : HandlerState) (e : ResponseEvent) :
    Except String ConsiderResult :=
  if e.method = "GET" ∧ reMatch e.url = true then
    if e.contentType = some "image/jpeg" then
      let image_data := e.body
      let image_hash := hashHex image_data
      if image_hash ∈ s.scraped_image_hashes then
        .ok ⟨s, true, none⟩
      else
        let file_name := image_hash ++ ".jpg"
        match codec.decode image_data with
        | none => .error "UnidentifiedImageError"
        | some image =>
          if cfg.min_image_size ≤ min (codec.width image) (codec.height image) ∧
              max (codec.width image) (codec.height image) ≤ cfg.max_image_size then
            .ok ⟨⟨image_hash :: s.scraped_image_hashes⟩, true,
              some (cfg.save_directory ++ "/" ++ file_name, codec.encode image)⟩
          else
            .ok ⟨s, true, none⟩
    else
      .ok ⟨s, false, none⟩
  else
    .ok ⟨s, false, none⟩

/-- The dimension predicate of line 49-51:
`min(image.size) >= self.min_image_size and max(image.size) <=
self.max_image_size`. -/
def sizeOk (cfg : HandlerConfig) (w h : Nat) : Bool :=
  decide (cfg.min_image_size ≤ min w h) && decide (max w h ≤ cfg.max_image_size)

/-- Whether a call of the handler raised (the exception escaped
`__call__`). -/
def raised (x : Except String ConsiderResult) : Bool :=
  match x with
  | .error _ => true
  | .ok _ => false

/-- Whether a call of the handler admitted (saved) the image. -/
def admitted (x : Except String ConsiderResult) : Bool :=
  match x with
  | .error _ => false
  | .ok r => r.written.isSome

/-- The file write a call performed, if any. -/
def writtenOf (x : Except String ConsiderResult) : Option (String × Bytes) :=
  match x with
  | .error _ => none
  | .ok r => r.written

/-- The handler state after delivering one event: the state the call left
behind, or the unchanged state when the call raised (the exception escapes
the handler, mutating nothing: the hash is inserted only after a successful
save). -/
def stepEvent {Img : Type} (codec : ImageCodec Img) (hashHex : Bytes → String)
    (cfg : HandlerConfig) (s : HandlerState) (e : ResponseEvent) : HandlerState :=
  match consider codec hashHex cfg s e with
  | .ok r => r.state
  | .error _ => s

/-- The handler state after delivering a list of events in order. -/
def processEvents {Img : Type} (codec : ImageCodec Img) (hashHex : Bytes → String)
    (cfg : HandlerConfig) (s : HandlerState) (evs : List ResponseEvent) : HandlerState :=
  evs.foldl (stepEvent codec hashHex cfg) s

instance {ε α : Type} [DecidableEq ε] [DecidableEq α] : DecidableEq (Except ε α) :=
  fun x y =>
    match x, y with
    | .error a, .error b =>
      if h : a = b then isTrue (h ▸ rfl) else isFalse fun hc => h (by cases hc; rfl)
    | .error _, .ok _ => isFalse fun hc => by cases hc
    | .ok _, .error _ => isFalse fun hc => by cases hc
    | .ok a, .ok b =>
      if h : a = b then isTrue (h ▸ rfl) else isFalse fun hc => h (by cases hc; rfl)

/-! ### The exploration loop (`main`, lines 96-129)

The browser collaborator is abstracted as, per iteration, a `PageObs` record:
whether the `networkidle` wait exceeded its timeout (in which case Playwright
raises `TimeoutError` and, there being no `try`/`except`, the run aborts),
whether a "Load more results" control is present, and the three reads of
`response_handler.scrape_counter` the iteration performs (loop top, after the
pause, and in the `done` expression).

`numpy.random.default_rng(seed)` is abstracted as an `RngImpl`: a seeded,
deterministic, explicitly threaded generator state with the two draw
operations the loop uses, `rng.random()` (a value in `[0, 1)`, modelled as a
rational) and `rng.integers(lo, hi)`. -/

/-- A deterministic pseudo-random generator at the interface the loop uses:
`init` is `numpy.random.default_rng(seed)`, `random` is `rng.random()`, and
`integers lo hi` is `rng.integers(lo, hi)`. -/
structure RngImpl (σ : Type) where
  init : Nat → σ
  random : σ → Rat × σ
  integers : Nat → Nat → σ → Nat × σ

/-- What the browser and the (possibly concurrent) response handler present
to one iteration of the loop. -/
structure PageObs where
  waitTimedOut : Bool
  loadMorePresent : Bool
  counterTop : Nat
  counterAfterSleep : Nat
  counterFinal : Nat
deriving DecidableEq, Repr

/-- The externally visible actions of one completed iteration: the scroll
direction chosen (line 104), whether "Load more results" was clicked, and
the pause duration drawn (line 117). -/
structure IterEffect where
  scrolledDown : Bool
  clickedLoadMore : Bool
  sleepMs : Nat
deriving DecidableEq, Repr

/-- One iteration of the `while not done` loop (lines 99-129).  Returns the
new patience counter and `done` flag, the new generator state, and the
iteration's effects — or the uncaught `TimeoutError` from
`page.wait_for_load_state("networkidle", ...)`. -/
def loopIter {σ : Type} (R : RngImpl σ) (number_of_images patience : Nat)
    (patience_counter : Nat) (g : σ) (obs : PageObs) :
    Except String ((Nat × Bool) × σ × IterEffect) :=
  let current_scrape_counter := obs.counterTop
  if obs.waitTimedOut then
    .error "TimeoutError"
  else
    let r := (R.random g).1
    let g1 := (R.random g).2
    let scrolledDown := decide (r < mkRat 3 4)
    let sleep_time := (R.integers 1000 2000 g1).1
    let g2 := (R.integers 1000 2000 g1).2
    let this_loop_scrapes : Int :=
      (obs.counterAfterSleep : Int) - (current_scrape_counter : Int)
    let pc := if this_loop_scrapes = 0 then patience_counter + 1 else 0
    let done :=
      decide (number_of_images ≤ obs.counterFinal) || decide (patience ≤ pc)
    .ok ((pc, done), g2, ⟨scrolledDown, obs.loadMorePresent, sleep_time⟩)

/-- How a run of the exploration loop ends: `done n effs` after exactly `n`
completed iterations (the loop's terminal condition held at the end of
iteration `n`), `aborted` when an uncaught exception escaped the loop, or
`outOfFuel` when the supplied fuel ran out before a terminal condition. -/
inductive RunResult where
  | done (iterations : Nat) (effects : List IterEffect)
  | aborted (err : String) (effects : List IterEffect)
  | outOfFuel (effects : List IterEffect)
deriving DecidableEq, Repr

/-- Prepend a completed iteration's effects to a run's effect trace. -/
def RunResult.consEff (e : IterEffect) : RunResult → RunResult
  | .done n l => .done n (e :: l)
  | .aborted err l => .aborted err (e :: l)
  | .outOfFuel l => .outOfFuel (e :: l)

/-- The effect trace of a run, in iteration order. -/
def RunResult.effects : RunResult → List IterEffect
  | .done _ l => l
  | .aborted _ l => l
  | .outOfFuel l => l

/-- The number of completed iterations of a run that reached `Done`. -/
def RunResult.iters : RunResult → Option Nat
  | .done n _ => some n
  | .aborted _ _ => none
  | .outOfFuel _ => none

/-- The `while not done` loop from iteration index `i` (0-based), patience
counter `pc` and generator state `g`, bounded by `fuel`.  `done (i+1)` is the
loop exiting after the iteration with index `i`. -/
def run {σ : Type} (R : RngImpl σ) (number_of_images patience : Nat)
    (obs : Nat → PageObs) : Nat → Nat → Nat → σ → RunResult
  | 0, _, _, _ => .outOfFuel []
  | fuel + 1, i, pc, g =>
    match loopIter R number_of_images patience pc g (obs i) with
    | .error err => .aborted err []
    | .ok ((pc', d), g', eff) =>
      if d then
        .done (i + 1) [eff]
      else
        (run R number_of_images patience obs fuel (i + 1) pc' g').consEff eff

/-- The whole loop as `main` enters it: `done = False`, `patience_counter =
0`, generator freshly seeded. -/
def mainRun {σ : Type} (R : RngImpl σ) (number_of_images patience : Nat)
    (obs : Nat → PageObs) (fuel seed : Nat) : RunResult :=
  run R number_of_images patience obs fuel 0 0 (R.init seed)

/-- The generator state at the start of iteration `i`: each iteration
consumes exactly one `rng.random()` draw and one `rng.integers(1000, 2000)`
draw, unconditionally. -/
def gAfter {σ : Type} (R : RngImpl σ) (seed : Nat) : Nat → σ
  | 0 => R.init seed
  | i + 1 => (R.integers 1000 2000 (R.random (gAfter R seed i)).2).2

/-- The scroll direction and pause duration of iteration `i`, as a pure
function of the generator implementation and the seed alone. -/
def decisionAt {σ : Type} (R : RngImpl σ) (seed i : Nat) : Bool × Nat :=
  let g := gAfter R seed i
  (decide ((R.random g).1 < mkRat 3 4), (R.integers 1000 2000 (R.random g).2).1)

/-- The page observations of a stalled session: the wait never times out and
the scrape counter is frozen at `c`. -/
def zeroProgressObs (c : Nat) (lm : Bool) : Nat → PageObs :=
  fun _ => ⟨false, lm, c, c, c⟩

/-! ### Concrete instances for witnesses and counterexamples

The abstract collaborators are instantiated with small executable stand-ins.
`TestCodec` keeps the two properties of a real JPEG codec that the claims
touch: decoding can fail, and decoding followed by re-encoding need not
reproduce the input bytes (a JPEG decoder ignores trailing bytes after the
end-of-image marker; PIL's `save` re-compresses).  An image is a triple
`(width, height, pixels)`; a byte string decodes when it has a width byte, a
height byte and at least `width * height` pixel bytes. -/

/-- A concrete executable image codec: header `w :: h ::` followed by at
least `w * h` pixel bytes; trailing bytes are ignored by `decode` and absent
from `encode`. -/
def TestCodec : ImageCodec (Nat × Nat × List Nat) where
  decode bs :=
    match bs with
    | w :: h :: rest =>
      if w * h ≤ rest.length then some (w, h, rest.take (w * h)) else none
    | _ => none
  width i := i.1
  height i := i.2.1
  encode i := i.1 :: i.2.1 :: i.2.2

/-- A concrete executable stand-in for `sha256(...).hexdigest()`: any
deterministic function of the bytes serves the claims. -/
def testHash (bs : Bytes) : String :=
  toString (bs.foldl (fun a b => a * 256 + b + 1) 7)

/-- A concrete executable generator: the state is a counter, `random`
alternates `0` and `1` (as rationals in `[0, 1)`), `integers lo hi` returns
`lo + g % (hi - lo)`. -/
def testRng : RngImpl Nat where
  init seed := seed
  random g := ((g % 2 : Nat), g + 1)
  integers lo hi g := (lo + g % (hi - lo), g + 1)

/-! ### Inversion lemmas about `consider` -/

/-- A call that fails the method/URL gate returns at once: no body fetch, no
write, no state change, no exception. -/
lemma consider_not_get {Img : Type} (codec : ImageCodec Img) (hashHex : Bytes → String)
    (cfg : HandlerConfig) (s : HandlerState) (e : ResponseEvent)
    (h : ¬(e.method = "GET" ∧ reMatch e.url = true)) :
    consider codec hashHex cfg s e = .ok ⟨s, false, none⟩ := by
  simp only [consider]
  rw [if_neg h]

/-- A call that passes the method/URL gate but fails the content-type gate
returns at once: no body fetch, no write, no state change, no exception. -/
lemma consider_not_jpeg {Img : Type} (codec : ImageCodec Img) (hashHex : Bytes → String)
    (cfg : HandlerConfig) (s : HandlerState) (e : ResponseEvent)
    (h1 : e.method = "GET" ∧ reMatch e.url = true)
    (h2 : e.contentType ≠ some "image/jpeg") :
    consider codec hashHex cfg s e = .ok ⟨s, false, none⟩ := by
  simp only [consider]
  rw [if_pos h1, if_neg h2]

/-- A call whose body hashes to an already-admitted hash is discarded after
the body fetch: no write, no state change, no exception (the duplicate check
precedes the decode). -/
lemma consider_dup {Img : Type} (codec : ImageCodec Img) (hashHex : Bytes → String)
    (cfg : HandlerConfig) (s : HandlerState) (e : ResponseEvent)
    (h1 : e.method = "GET" ∧ reMatch e.url = true)
    (h2 : e.contentType = some "image/jpeg")
    (h3 : hashHex e.body ∈ s.scraped_image_hashes) :
    consider codec hashHex cfg s e = .ok ⟨s, true, none⟩ := by
  simp only [consider]
  rw [if_pos h1, if_pos h2, if_pos h3]

/-- Inversion of a call that wrote a file: every gate passed, the hash was
new, the body decoded, the dimensions were in range, the state gained exactly
that hash, the path is `save_directory/<hash>.jpg` and the bytes written are
the codec's re-encoding of the decoded image. -/
lemma consider_ok_written {Img : Type} (codec : ImageCodec Img) (hashHex : Bytes → String)
    (cfg : HandlerConfig) (s : HandlerState) (e : ResponseEvent) (r : ConsiderResult)
    (h : consider codec hashHex cfg s e = .ok r) (hw : r.written.isSome) :
    (e.method = "GET" ∧ reMatch e.url = true) ∧ e.contentType = some "image/jpeg" ∧
    hashHex e.body ∉ s.scraped_image_hashes ∧
    ∃ img, codec.decode e.body = some img ∧
      cfg.min_image_size ≤ min (codec.width img) (codec.height img) ∧
      max (codec.width img) (codec.height img) ≤ cfg.max_image_size ∧
      r = ⟨⟨hashHex e.body :: s.scraped_image_hashes⟩, true,
        some (cfg.save_directory ++ "/" ++ (hashHex e.body ++ ".jpg"), codec.encode img)⟩ := by
  by_cases h1 : e.method = "GET" ∧ reMatch e.url = true
  · by_cases h2 : e.contentType = some "image/jpeg"
    · by_cases h3 : hashHex e.body ∈ s.scraped_image_hashes
      · rw [consider_dup codec hashHex cfg s e h1 h2 h3] at h
        injection h with h'
        subst h'
        simp at hw
      · cases hd : codec.decode e.body with
        | none =>
          simp only [consider, hd] at h
          rw [if_pos h1, if_pos h2, if_neg h3] at h
          cases h
        | some img =>
          simp only [consider, hd] at h
          rw [if_pos h1, if_pos h2, if_neg h3] at h
          by_cases h4 : cfg.min_image_size ≤ min (codec.width img) (codec.height img) ∧
              max (codec.width img) (codec.height img) ≤ cfg.max_image_size
          · rw [if_pos h4] at h
            injection h with h'
            subst h'
            exact ⟨h1, h2, h3, img, rfl, h4.1, h4.2, rfl⟩
          · rw [if_neg h4] at h
            injection h with h'
            subst h'
            simp at hw
    · rw [consider_not_jpeg codec hashHex cfg s e h1 h2] at h
      injection h with h'
      subst h'
      simp at hw
  · rw [consider_not_get codec hashHex cfg s e h1] at h
    injection h with h'
    subst h'
    simp at hw

/-- A call that returns normally leaves the hash set either unchanged or
extended by exactly the body's hash. -/
lemma consider_state_cases {Img : Type} (codec : ImageCodec Img) (hashHex : Bytes → String)
    (cfg : HandlerConfig) (s : HandlerState) (e : ResponseEvent) (r : ConsiderResult)
    (h : consider codec hashHex cfg s e = .ok r) :
    r.state = s ∨ r.state = ⟨hashHex e.body :: s.scraped_image_hashes⟩ := by
  by_cases h1 : e.method = "GET" ∧ reMatch e.url = true
  · by_cases h2 : e.contentType = some "image/jpeg"
    · by_cases h3 : hashHex e.body ∈ s.scraped_image_hashes
      · rw [consider_dup codec hashHex cfg s e h1 h2 h3] at h
        injection h with h'
        subst h'
        exact Or.inl rfl
      · cases hd : codec.decode e.body with
        | none =>
          simp only [consider, hd] at h
          rw [if_pos h1, if_pos h2, if_neg h3] at h
          cases h
        | some img =>
          simp only [consider, hd] at h
          rw [if_pos h1, if_pos h2, if_neg h3] at h
          by_cases h4 : cfg.min_image_size ≤ min (codec.width img) (codec.height img) ∧
              max (codec.width img) (codec.height img) ≤ cfg.max_image_size
          · rw [if_pos h4] at h
            injection h with h'
            subst h'
            exact Or.inr rfl
          · rw [if_neg h4] at h
            injection h with h'
            subst h'
            exact Or.inl rfl
    · rw [consider_not_jpeg codec hashHex cfg s e h1 h2] at h
      injection h with h'
      subst h'
      exact Or.inl rfl
  · rw [consider_not_get codec hashHex cfg s e h1] at h
    injection h with h'
    subst h'
    exact Or.inl rfl

/-- Delivering one event never removes a hash from the set. -/
lemma stepEvent_mem_mono {Img : Type} (codec : ImageCodec Img) (hashHex : Bytes → String)
    (cfg : HandlerConfig) (s : HandlerState) (e : ResponseEvent) (x : String)
    (hx : x ∈ s.scraped_image_hashes) :
    x ∈ (stepEvent codec hashHex cfg s e).scraped_image_hashes := by
  unfold stepEvent
  cases h : consider codec hashHex cfg s e with
  | error _ => exact hx
  | ok r =>
    show x ∈ r.state.scraped_image_hashes
    rcases consider_state_cases codec hashHex cfg s e r h with hs | hs <;> rw [hs]
    · exact hx
    · exact List.mem_cons_of_mem _ hx

/-- Delivering any list of events never removes a hash from the set. -/
lemma processEvents_mem_mono {Img : Type} (codec : ImageCodec Img) (hashHex : Bytes → String)
    (cfg : HandlerConfig) (evs : List ResponseEvent) (s : HandlerState) (x : String)
    (hx : x ∈ s.scraped_image_hashes) :
    x ∈ (processEvents codec hashHex cfg s evs).scraped_image_hashes := by
  induction evs generalizing s with
  | nil => exact hx
  | cons e evs ih =>
    exact ih (stepEvent codec hashHex cfg s e) (stepEvent_mem_mono codec hashHex cfg s e x hx)

/-! ### Claim theorems -/

/-- C10: the content-type gate is exact string equality with `"image/jpeg"`:
any other header value — parameters attached, different case, or the header
absent (`none`) — makes the handler return at once with no body fetch, no
write, no state change and no exception. -/
theorem c10_content_type_exact {Img : Type} (codec : ImageCodec Img)
    (hashHex : Bytes → String) (cfg : HandlerConfig) (s : HandlerState)
    (e : ResponseEvent) (h : e.contentType ≠ some "image/jpeg") :
    consider codec hashHex cfg s e = .ok ⟨s, false, none⟩ := by
  by_cases h1 : e.method = "GET" ∧ reMatch e.url = true
  · exact consider_not_jpeg codec hashHex cfg s e h1 h
  · exact consider_not_get codec hashHex cfg s e h1

/-- A matching GET response whose content-type header carries a parameter is
rejected without error: `c10_content_type_exact` at a concrete input. -/
theorem c10_witness :
    (some "image/jpeg; charset=utf-8" ≠ some "image/jpeg") ∧
    consider TestCodec testHash ⟨"out", 128, 4096⟩ ⟨[]⟩
      ⟨"GET", "https://live.staticflickr.com/1/a.jpg",
        some "image/jpeg; charset=utf-8", [1, 1, 5]⟩
      = .ok ⟨⟨[]⟩, false, none⟩ :=
  ⟨by decide,
    c10_content_type_exact TestCodec testHash ⟨"out", 128, 4096⟩ ⟨[]⟩
      ⟨"GET", "https://live.staticflickr.com/1/a.jpg",
        some "image/jpeg; charset=utf-8", [1, 1, 5]⟩ (by decide)⟩

/-- C6: no response is admitted unless its request method is GET, its URL
matches the image-host pattern, and its content-type is `image/jpeg`; and
when any of the three gates fails, the handler returns with the body never
fetched. -/
theorem c6_gates_before_body {Img : Type} (codec : ImageCodec Img)
    (hashHex : Bytes → String) (cfg : HandlerConfig) (s : HandlerState)
    (e : ResponseEvent) :
    (admitted (consider codec hashHex cfg s e) = true →
      e.method = "GET" ∧ reMatch e.url = true ∧ e.contentType = some "image/jpeg") ∧
    (¬(e.method = "GET" ∧ reMatch e.url = true ∧ e.contentType = some "image/jpeg") →
      consider codec hashHex cfg s e = .ok ⟨s, false, none⟩) := by
  constructor
  · intro ha
    cases hc : consider codec hashHex cfg s e with
    | error err => rw [hc] at ha; simp [admitted] at ha
    | ok r =>
      rw [hc] at ha
      simp only [admitted] at ha
      obtain ⟨hg, hct, -⟩ := consider_ok_written codec hashHex cfg s e r hc ha
      exact ⟨hg.1, hg.2, hct⟩
  · intro hng
    by_cases h1 : e.method = "GET" ∧ reMatch e.url = true
    · have h2 : e.contentType ≠ some "image/jpeg" := fun hc => hng ⟨h1.1, h1.2, hc⟩
      exact consider_not_jpeg codec hashHex cfg s e h1 h2
    · exact consider_not_get codec hashHex cfg s e h1

/-- C1 fails as stated: a matching GET JPEG response whose body does not
decode makes `__call__` raise (`Image.open` has no surrounding
`try`/`except`), so an exception does escape the admission handler instead
of being logged and discarded. -/
theorem c1_counterexample :
    consider TestCodec testHash ⟨"out", 128, 4096⟩ ⟨[]⟩
      ⟨"GET", "https://live.staticflickr.com/1/b.jpg", some "image/jpeg", [5]⟩
      = .error "UnidentifiedImageError" ∧
    raised (consider TestCodec testHash ⟨"out", 128, 4096⟩ ⟨[]⟩
      ⟨"GET", "https://live.staticflickr.com/1/b.jpg", some "image/jpeg", [5]⟩) = true := by
  constructor <;> decide

/-- C1 amended: an exception escapes the handler exactly when the response
passes the method, URL and content-type gates, its body's hash is new, and
the body fails to decode; in every other case the handler returns normally
and the response degrades to "not admitted" (or is admitted). -/
theorem c1_exception_escape_iff {Img : Type} (codec : ImageCodec Img)
    (hashHex : Bytes → String) (cfg : HandlerConfig) (s : HandlerState)
    (e : ResponseEvent) :
    raised (consider codec hashHex cfg s e) = true ↔
      ((e.method = "GET" ∧ reMatch e.url = true) ∧ e.contentType = some "image/jpeg" ∧
       hashHex e.body ∉ s.scraped_image_hashes ∧ codec.decode e.body = none) := by
  constructor
  · intro hr
    by_cases h1 : e.method = "GET" ∧ reMatch e.url = true
    · by_cases h2 : e.contentType = some "image/jpeg"
      · by_cases h3 : hashHex e.body ∈ s.scraped_image_hashes
        · rw [consider_dup codec hashHex cfg s e h1 h2 h3] at hr
          simp [raised] at hr
        · cases hd : codec.decode e.body with
          | none => exact ⟨h1, h2, h3, rfl⟩
          | some img =>
            simp only [consider, hd] at hr
            rw [if_pos h1, if_pos h2, if_neg h3] at hr
            by_cases h4 : cfg.min_image_size ≤ min (codec.width img) (codec.height img) ∧
                max (codec.width img) (codec.height img) ≤ cfg.max_image_size
            · rw [if_pos h4] at hr; simp [raised] at hr
            · rw [if_neg h4] at hr; simp [raised] at hr
      · rw [consider_not_jpeg codec hashHex cfg s e h1 h2] at hr
        simp [raised] at hr
    · rw [consider_not_get codec hashHex cfg s e h1] at hr
      simp [raised] at hr
  · rintro ⟨h1, h2, h3, hd⟩
    simp only [consider, hd]
    rw [if_pos h1, if_pos h2, if_neg h3]
    rfl

/-- C5: once a response passes the earlier gates and decodes, admission holds
iff `min(width, height) ≥ minSize` and `max(width, height) ≤ maxSize`;
rejection writes nothing; and the four boundary instances of the dimension
predicate behave as the spec states. -/
theorem c5_dimension_boundary {Img : Type} (codec : ImageCodec Img)
    (hashHex : Bytes → String) (cfg : HandlerConfig) (s : HandlerState)
    (e : ResponseEvent) (img : Img)
    (hmin : 1 ≤ cfg.min_image_size) (hle : cfg.min_image_size ≤ cfg.max_image_size)
    (h1 : e.method = "GET" ∧ reMatch e.url = true)
    (h2 : e.contentType = some "image/jpeg")
    (h3 : hashHex e.body ∉ s.scraped_image_hashes)
    (hd : codec.decode e.body = some img) :
    (admitted (consider codec hashHex cfg s e) = true ↔
      (cfg.min_image_size ≤ min (codec.width img) (codec.height img) ∧
       max (codec.width img) (codec.height img) ≤ cfg.max_image_size)) ∧
    (admitted (consider codec hashHex cfg s e) = false →
      writtenOf (consider codec hashHex cfg s e) = none) ∧
    sizeOk cfg cfg.min_image_size cfg.min_image_size = true ∧
    sizeOk cfg (cfg.min_image_size - 1) cfg.min_image_size = false ∧
    sizeOk cfg cfg.max_image_size cfg.max_image_size = true ∧
    sizeOk cfg (cfg.max_image_size + 1) cfg.max_image_size = false := by
  have hc : consider codec hashHex cfg s e =
      if cfg.min_image_size ≤ min (codec.width img) (codec.height img) ∧
          max (codec.width img) (codec.height img) ≤ cfg.max_image_size then
        .ok ⟨⟨hashHex e.body :: s.scraped_image_hashes⟩, true,
          some (cfg.save_directory ++ "/" ++ (hashHex e.body ++ ".jpg"), codec.encode img)⟩
      else .ok ⟨s, true, none⟩ := by
    simp only [consider, hd]
    rw [if_pos h1, if_pos h2, if_neg h3]
  refine ⟨?_, ?_, ?_, ?_, ?_, ?_⟩
  · rw [hc]
    by_cases h4 : cfg.min_image_size ≤ min (codec.width img) (codec.height img) ∧
        max (codec.width img) (codec.height img) ≤ cfg.max_image_size
    · rw [if_pos h4]; simpa [admitted] using h4
    · rw [if_neg h4]; simpa [admitted] using h4
  · rw [hc]
    split_ifs with h4
    · simp [admitted]
    · simp [admitted, writtenOf]
  · simp [sizeOk, hle]
  · have h5 : ¬(cfg.min_image_size ≤ cfg.min_image_size - 1) := by omega
    have h6 : min (cfg.min_image_size - 1) cfg.min_image_size = cfg.min_image_size - 1 := by
      omega
    simp [sizeOk, h6, h5]
  · simp [sizeOk, hle]
  · have h5 : ¬(cfg.max_image_size + 1 ≤ cfg.max_image_size) := by omega
    have h6 : max (cfg.max_image_size + 1) cfg.max_image_size = cfg.max_image_size + 1 := by
      omega
    simp [sizeOk, h6, h5]

/-- `c5_dimension_boundary` applied at a concrete admitted image: dimensions
2×2 with `minSize = 2`, `maxSize = 3`. -/
theorem c5_witness :
    ((1 : Nat) ≤ 2 ∧ (2 : Nat) ≤ 3) ∧
    TestCodec.decode [2, 2, 9, 9, 9, 9] = some (2, 2, [9, 9, 9, 9]) ∧
    ((admitted (consider TestCodec testHash ⟨"out", 2, 3⟩ ⟨[]⟩
        ⟨"GET", "https://live.staticflickr.com/5/a.jpg", some "image/jpeg",
          [2, 2, 9, 9, 9, 9]⟩) = true ↔
      (2 ≤ min (TestCodec.width (2, 2, [9, 9, 9, 9])) (TestCodec.height (2, 2, [9, 9, 9, 9])) ∧
       max (TestCodec.width (2, 2, [9, 9, 9, 9])) (TestCodec.height (2, 2, [9, 9, 9, 9])) ≤ 3)) ∧
     (admitted (consider TestCodec testHash ⟨"out", 2, 3⟩ ⟨[]⟩
        ⟨"GET", "https://live.staticflickr.com/5/a.jpg", some "image/jpeg",
          [2, 2, 9, 9, 9, 9]⟩) = false →
      writtenOf (consider TestCodec testHash ⟨"out", 2, 3⟩ ⟨[]⟩
        ⟨"GET", "https://live.staticflickr.com/5/a.jpg", some "image/jpeg",
          [2, 2, 9, 9, 9, 9]⟩) = none) ∧
     sizeOk ⟨"out", 2, 3⟩ 2 2 = true ∧
     sizeOk ⟨"out", 2, 3⟩ 1 2 = false ∧
     sizeOk ⟨"out", 2, 3⟩ 3 3 = true ∧
     sizeOk ⟨"out", 2, 3⟩ 4 3 = false) :=
  ⟨⟨by decide, by decide⟩, by decide,
    c5_dimension_boundary TestCodec testHash ⟨"out", 2, 3⟩ ⟨[]⟩
      ⟨"GET", "https://live.staticflickr.com/5/a.jpg", some "image/jpeg",
        [2, 2, 9, 9, 9, 9]⟩ (2, 2, [9, 9, 9, 9])
      (by decide) (by decide) (by decide) (by decide) (by decide) (by decide)⟩

/-- A matching GET JPEG response whose body carries trailing bytes after the
pixel data: it decodes, is admitted, and the codec's re-encoding drops the
trailing bytes. -/
def evC2 : ResponseEvent :=
  ⟨"GET", "https://live.staticflickr.com/1/c.jpg", some "image/jpeg", [1, 1, 5, 77]⟩

/-- C2 fails as stated: for this admitted response the bytes written to disk
are the codec's re-encoding `[1, 1, 5]` of the decoded image
(`image.save` re-encodes), not the raw response body `[1, 1, 5, 77]` that
was hashed. -/
theorem c2_counterexample :
    writtenOf (consider TestCodec testHash ⟨"out", 1, 4096⟩ ⟨[]⟩ evC2)
      = some ("out" ++ "/" ++ (testHash [1, 1, 5, 77] ++ ".jpg"), [1, 1, 5]) ∧
    evC2.body = [1, 1, 5, 77] ∧
    ([1, 1, 5] : Bytes) ≠ [1, 1, 5, 77] := by
  refine ⟨by decide, by decide, by decide⟩

/-- C2 amended: for every admitted response the file lands in the configured
directory under `<hex-content-hash-of-raw-body>.jpg`, but its contents are
the image codec's re-encoding of the decoded image, which need not equal the
raw (hashed) body bytes. -/
theorem c2_persisted_file {Img : Type} (codec : ImageCodec Img)
    (hashHex : Bytes → String) (cfg : HandlerConfig) (s : HandlerState)
    (e : ResponseEvent) (r : ConsiderResult) (p : String) (bs : Bytes)
    (h : consider codec hashHex cfg s e = .ok r)
    (hw : r.written = some (p, bs)) :
    ∃ img, codec.decode e.body = some img ∧ bs = codec.encode img ∧
      p = cfg.save_directory ++ "/" ++ (hashHex e.body ++ ".jpg") := by
  have hsome : r.written.isSome = true := by rw [hw]; rfl
  obtain ⟨-, -, -, img, hd, -, -, hr⟩ := consider_ok_written codec hashHex cfg s e r h hsome
  subst hr
  simp only [Option.some.injEq, Prod.mk.injEq] at hw
  exact ⟨img, hd, hw.2.symm, hw.1.symm⟩

/-- `c2_persisted_file` at the concrete admitted response `evC2`. -/
theorem c2_witness :
    (consider TestCodec testHash ⟨"out", 1, 4096⟩ ⟨[]⟩ evC2
      = .ok ⟨⟨[testHash [1, 1, 5, 77]]⟩, true,
          some ("out" ++ "/" ++ (testHash [1, 1, 5, 77] ++ ".jpg"), [1, 1, 5])⟩) ∧
    ((some ("out" ++ "/" ++ (testHash [1, 1, 5, 77] ++ ".jpg"), ([1, 1, 5] : Bytes))
      : Option (String × Bytes))
      = some ("out" ++ "/" ++ (testHash [1, 1, 5, 77] ++ ".jpg"), [1, 1, 5])) ∧
    (∃ img, TestCodec.decode evC2.body = some img ∧
      ([1, 1, 5] : Bytes) = TestCodec.encode img ∧
      "out" ++ "/" ++ (testHash [1, 1, 5, 77] ++ ".jpg")
        = "out" ++ "/" ++ (testHash evC2.body ++ ".jpg")) :=
  ⟨by decide, by decide,
    c2_persisted_file TestCodec testHash ⟨"out", 1, 4096⟩ ⟨[]⟩ evC2
      ⟨⟨[testHash [1, 1, 5, 77]]⟩, true,
        some ("out" ++ "/" ++ (testHash [1, 1, 5, 77] ++ ".jpg"), [1, 1, 5])⟩
      ("out" ++ "/" ++ (testHash [1, 1, 5, 77] ++ ".jpg")) [1, 1, 5]
      (by decide) (by decide)⟩

/-- C3: once a response is admitted, its hash stays in the set for the rest
of the session, so delivering any later event with the identical bytes
writes no second file and leaves the state (hence the scrape counter)
unchanged; the first admission raised the counter by exactly 1. -/
theorem c3_idempotent_admission {Img : Type} (codec : ImageCodec Img)
    (hashHex : Bytes → String) (cfg : HandlerConfig) (s : HandlerState)
    (e : ResponseEvent) (r : ConsiderResult)
    (h : consider codec hashHex cfg s e = .ok r) (hw : r.written.isSome = true) :
    scrape_counter r.state = scrape_counter s + 1 ∧
    ∀ (evs : List ResponseEvent) (e2 : ResponseEvent), e2.body = e.body →
      ∃ r2, consider codec hashHex cfg (processEvents codec hashHex cfg r.state evs) e2
          = .ok r2 ∧
        r2.written = none ∧
        r2.state = processEvents codec hashHex cfg r.state evs := by
  obtain ⟨-, -, -, img, -, -, -, hr⟩ := consider_ok_written codec hashHex cfg s e r h hw
  subst hr
  constructor
  · simp [scrape_counter]
  · intro evs e2 hbody
    have hmem : hashHex e2.body ∈
        (processEvents codec hashHex cfg
          (⟨hashHex e.body :: s.scraped_image_hashes⟩ : HandlerState) evs).scraped_image_hashes := by
      rw [hbody]
      exact processEvents_mem_mono codec hashHex cfg evs _ _ (List.mem_cons_self _ _)
    by_cases h1 : e2.method = "GET" ∧ reMatch e2.url = true
    · by_cases h2 : e2.contentType = some "image/jpeg"
      · exact ⟨_, consider_dup codec hashHex cfg _ e2 h1 h2 hmem, rfl, rfl⟩
      · exact ⟨_, consider_not_jpeg codec hashHex cfg _ e2 h1 h2, rfl, rfl⟩
    · exact ⟨_, consider_not_get codec hashHex cfg _ e2 h1, rfl, rfl⟩

/-- A concrete admitted response for the idempotence witness. -/
def evC3 : ResponseEvent :=
  ⟨"GET", "https://live.staticflickr.com/9/d.jpg", some "image/jpeg", [1, 1, 8]⟩

/-- `c3_idempotent_admission` at the concrete admitted response `evC3`. -/
theorem c3_witness :
    (consider TestCodec testHash ⟨"out", 1, 4096⟩ ⟨[]⟩ evC3
      = .ok ⟨⟨[testHash [1, 1, 8]]⟩, true,
          some ("out" ++ "/" ++ (testHash [1, 1, 8] ++ ".jpg"), [1, 1, 8])⟩) ∧
    ((some ("out" ++ "/" ++ (testHash [1, 1, 8] ++ ".jpg"), ([1, 1, 8] : Bytes))
      : Option (String × Bytes)).isSome = true) ∧
    (scrape_counter ⟨[testHash [1, 1, 8]]⟩ = scrape_counter ⟨[]⟩ + 1 ∧
     ∀ (evs : List ResponseEvent) (e2 : ResponseEvent), e2.body = evC3.body →
      ∃ r2, consider TestCodec testHash ⟨"out", 1, 4096⟩
          (processEvents TestCodec testHash ⟨"out", 1, 4096⟩ ⟨[testHash [1, 1, 8]]⟩ evs) e2
          = .ok r2 ∧
        r2.written = none ∧
        r2.state = processEvents TestCodec testHash ⟨"out", 1, 4096⟩ ⟨[testHash [1, 1, 8]]⟩ evs) :=
  ⟨by decide, by decide,
    c3_idempotent_admission TestCodec testHash ⟨"out", 1, 4096⟩ ⟨[]⟩ evC3
      ⟨⟨[testHash [1, 1, 8]]⟩, true,
        some ("out" ++ "/" ++ (testHash [1, 1, 8] ++ ".jpg"), [1, 1, 8])⟩
      (by decide) (by decide)⟩

/-! ### Lemmas about the exploration loop -/

/-- `consEff` preserves the way a run ended and its iteration count. -/
lemma consEff_iters (e : IterEffect) (x : RunResult) :
    (x.consEff e).iters = x.iters := by
  cases x <;> rfl

/-- `consEff` prepends to the effect trace. -/
lemma consEff_effects (e : IterEffect) (x : RunResult) :
    (x.consEff e).effects = e :: x.effects := by
  cases x <;> rfl

/-- Inversion of `consEff` ending in `done`. -/
lemma consEff_done {e : IterEffect} {x : RunResult} {k : Nat} {effs : List IterEffect}
    (h : x.consEff e = .done k effs) : ∃ l, x = .done k l ∧ effs = e :: l := by
  cases x with
  | done n l =>
    injection h with h1 h2
    exact ⟨l, by rw [h1], h2.symm⟩
  | aborted err l => cases h
  | outOfFuel l => cases h

/-- A successful iteration's generator threading and effects: the new state
is the one after the iteration's two draws, the direction is the `random`
draw against 3/4, the pause is the `integers 1000 2000` draw. -/
lemma loopIter_ok_inv {σ : Type} (R : RngImpl σ) (t p pc : Nat) (g : σ)
    (o : PageObs) (pc' : Nat) (d : Bool) (g' : σ) (eff : IterEffect)
    (h : loopIter R t p pc g o = .ok ((pc', d), g', eff)) :
    g' = (R.integers 1000 2000 (R.random g).2).2 ∧
    eff = ⟨decide ((R.random g).1 < mkRat 3 4), o.loadMorePresent,
      (R.integers 1000 2000 (R.random g).2).1⟩ := by
  by_cases hw : o.waitTimedOut = true
  · simp [loopIter, hw] at h
  · simp only [loopIter, if_neg hw] at h
    simp only [Except.ok.injEq, Prod.mk.injEq] at h
    obtain ⟨-, hg, heff⟩ := h
    exact ⟨hg.symm, heff.symm⟩

/-- A run that reached `Done` from iteration index `i` completed at least
`i + 1` iterations: the terminal test runs only at the end of an
iteration. -/
lemma run_done_ge {σ : Type} (R : RngImpl σ) (t p : Nat) (obs : Nat → PageObs) :
    ∀ (fuel i pc : Nat) (g : σ) (k : Nat) (effs : List IterEffect),
      run R t p obs fuel i pc g = .done k effs → i + 1 ≤ k := by
  intro fuel
  induction fuel with
  | zero =>
    intro i pc g k effs h
    simp only [run] at h
    cases h
  | succ fuel ih =>
    intro i pc g k effs h
    simp only [run] at h
    cases hit : loopIter R t p pc g (obs i) with
    | error err => rw [hit] at h; cases h
    | ok v =>
      obtain ⟨⟨pc', d⟩, g', eff⟩ := v
      rw [hit] at h
      by_cases hd : d = true
      · subst hd
        simp only [if_true] at h
        injection h with h1 h2
        omega
      · rw [Bool.not_eq_true] at hd
        subst hd
        simp only [Bool.false_eq_true, if_false] at h
        obtain ⟨l, hrun, -⟩ := consEff_done h
        have := ih (i + 1) pc' g' k l hrun
        omega

/-- The `while not done` loop on a stalled page: with the counter frozen at
`c < target` and the wait never timing out, each iteration adds 1 to the
patience counter and the run reaches `Done` after exactly `p - pc` more
iterations. -/
lemma run_zero_progress {σ : Type} (R : RngImpl σ) (t p c : Nat) (lm : Bool)
    (hct : c < t) :
    ∀ (fuel i pc : Nat) (g : σ), pc < p → p - pc ≤ fuel →
      (run R t p (zeroProgressObs c lm) fuel i pc g).iters = some (i + (p - pc)) := by
  intro fuel
  induction fuel with
  | zero =>
    intro i pc g hpc hf
    omega
  | succ fuel ih =>
    intro i pc g hpc hf
    have hnt : ¬(t ≤ c) := by omega
    have hit : loopIter R t p pc g (zeroProgressObs c lm i) =
        .ok ((pc + 1, decide (p ≤ pc + 1)), (R.integers 1000 2000 (R.random g).2).2,
          ⟨decide ((R.random g).1 < mkRat 3 4), lm, (R.integers 1000 2000 (R.random g).2).1⟩) := by
      simp [loopIter, zeroProgressObs, hnt]
    simp only [run, hit]
    by_cases hp1 : p ≤ pc + 1
    · have hd : decide (p ≤ pc + 1) = true := by simp [hp1]
      rw [hd]
      simp only [if_true, RunResult.iters, Option.some.injEq]
      omega
    · have hd : decide (p ≤ pc + 1) = false := by simp [hp1]
      rw [hd]
      simp only [Bool.false_eq_true, if_false]
      rw [consEff_iters]
      rw [ih (i + 1) (pc + 1) _ (by omega) (by omega)]
      congr 1
      omega

/-- The loop consumes exactly two draws per iteration, unconditionally, so
the `j`-th recorded effect's direction and pause depend only on the seed and
on `j` — whatever the page observations were. -/
lemma run_effects_decision {σ : Type} (R : RngImpl σ) (seed t p : Nat)
    (obs : Nat → PageObs) :
    ∀ (fuel i pc j : Nat) (eff : IterEffect),
      ((run R t p obs fuel i pc (gAfter R seed i)).effects).get? j = some eff →
      (eff.scrolledDown, eff.sleepMs) = decisionAt R seed (i + j) := by
  intro fuel
  induction fuel with
  | zero =>
    intro i pc j eff h
    simp [run, RunResult.effects] at h
  | succ fuel ih =>
    intro i pc j eff h
    simp only [run] at h
    cases hit : loopIter R t p pc (gAfter R seed i) (obs i) with
    | error err =>
      rw [hit] at h
      simp [RunResult.effects] at h
    | ok v =>
      obtain ⟨⟨pc', d⟩, g', eff'⟩ := v
      rw [hit] at h
      obtain ⟨hg, heff⟩ := loopIter_ok_inv R t p pc (gAfter R seed i) (obs i) pc' d g' eff' hit
      by_cases hd : d = true
      · subst hd
        simp only [if_true, RunResult.effects] at h
        cases j with
        | zero =>
          simp only [List.get?] at h
          injection h with h'
          subst h'
          rw [heff, decisionAt]
          rfl
        | succ j' => simp at h
      · rw [Bool.not_eq_true] at hd
        subst hd
        simp only [Bool.false_eq_true, if_false, consEff_effects] at h
        cases j with
        | zero =>
          simp only [List.get?] at h
          injection h with h'
          subst h'
          rw [heff, decisionAt]
          rfl
        | succ j' =>
          simp only [List.get?] at h
          have hg' : g' = gAfter R seed (i + 1) := by rw [hg]; rfl
          rw [hg'] at h
          have := ih (i + 1) pc' j' eff h
          rw [this]
          congr 1
          omega

/-! ### Controller claim theorems -/

/-- C9: the loop body runs before `done` is ever tested, so any run that
reaches `Done` completed at least one full iteration — even with a target of
zero already satisfied at entry. -/
theorem c9_at_least_one_iteration {σ : Type} (R : RngImpl σ)
    (number_of_images patience : Nat) (obs : Nat → PageObs) (fuel seed k : Nat)
    (effs : List IterEffect)
    (h : mainRun R number_of_images patience obs fuel seed = .done k effs) :
    1 ≤ k :=
  run_done_ge R number_of_images patience obs fuel 0 0 (R.init seed) k effs h

/-- `c9_at_least_one_iteration` at target 0 with the counter already at 0:
the run still performs one full iteration before ending. -/
theorem c9_witness :
    (mainRun testRng 0 3 (zeroProgressObs 0 false) 10 0
      = .done 1 [⟨true, false, 1001⟩]) ∧ 1 ≤ 1 :=
  ⟨by decide,
    c9_at_least_one_iteration testRng 0 3 (zeroProgressObs 0 false) 10 0 1
      [⟨true, false, 1001⟩] (by decide)⟩

/-- C4 fails as stated: with patience ceiling 3, a zero-progress source and
a target of 0 (already satisfied by the frozen counter), the loop performs 1
iteration, not 3 — the patience bound is not independent of the configured
target count. -/
theorem c4_counterexample :
    (mainRun testRng 0 3 (zeroProgressObs 0 false) 10 0).iters = some 1 ∧
    (mainRun testRng 0 3 (zeroProgressObs 0 false) 10 0).iters ≠ some 3 := by
  refine ⟨by decide, by decide⟩

/-- C4 amended: with a zero-progress source whose frozen counter stays below
the target, a patience ceiling `p ≥ 1` and enough fuel, the loop performs
exactly `p` iterations and transitions to `Done`. -/
theorem c4_patience_termination {σ : Type} (R : RngImpl σ)
    (number_of_images patience c fuel seed : Nat) (lm : Bool)
    (hct : c < number_of_images) (hp : 1 ≤ patience) (hf : patience ≤ fuel) :
    (mainRun R number_of_images patience (zeroProgressObs c lm) fuel seed).iters
      = some patience := by
  have h := run_zero_progress R number_of_images patience c lm hct fuel 0 0
    (R.init seed) (by omega) (by omega)
  simpa using h

/-- `c4_patience_termination` at target 1, frozen counter 0, patience 3,
fuel 10. -/
theorem c4_witness :
    ((0 : Nat) < 1 ∧ (1 : Nat) ≤ 3 ∧ (3 : Nat) ≤ 10) ∧
    (mainRun testRng 1 3 (zeroProgressObs 0 false) 10 0).iters = some 3 :=
  ⟨⟨by decide, by decide, by decide⟩,
    c4_patience_termination testRng 1 3 0 10 0 false (by decide) (by decide) (by decide)⟩

/-- Observations in which the network-idle wait times out at every
iteration. -/
def timeoutObs : Nat → PageObs := fun _ => ⟨true, false, 0, 0, 0⟩

/-- C7 fails as stated: a `networkidle` wait timeout at the first iteration
aborts the whole session with the uncaught `TimeoutError` — the loop does
not proceed with the iteration and no iteration completes. -/
theorem c7_counterexample :
    mainRun testRng 10 100 timeoutObs 5 0 = .aborted "TimeoutError" [] ∧
    (mainRun testRng 10 100 timeoutObs 5 0).iters = none := by
  refine ⟨by decide, by decide⟩

/-- C7 amended: whenever the network-idle wait of the current iteration
times out, `page.wait_for_load_state` raises and nothing in `main` catches
it: the run aborts at once, performing no part of the iteration. -/
theorem c7_timeout_aborts {σ : Type} (R : RngImpl σ)
    (number_of_images patience : Nat) (obs : Nat → PageObs)
    (fuel i pc : Nat) (g : σ) (h : (obs i).waitTimedOut = true) :
    run R number_of_images patience obs (fuel + 1) i pc g
      = .aborted "TimeoutError" [] := by
  simp [run, loopIter, h]

/-- `c7_timeout_aborts` at the concrete always-timing-out observations. -/
theorem c7_witness :
    (timeoutObs 0).waitTimedOut = true ∧
    run testRng 10 100 timeoutObs (4 + 1) 0 0 (testRng.init 0)
      = .aborted "TimeoutError" [] :=
  ⟨by decide, c7_timeout_aborts testRng 10 100 timeoutObs 4 0 0 (testRng.init 0) (by decide)⟩

/-- C8: for a fixed seed the scroll directions and pause durations are a
deterministic function of the seed and the iteration index alone: two runs
with the same seed — even against different pages, targets and patience
ceilings — record identical direction/pause pairs at every common iteration,
each equal to `decisionAt`. -/
theorem c8_deterministic_pacing {σ : Type} (R : RngImpl σ) (seed : Nat)
    (t1 p1 t2 p2 : Nat) (obs1 obs2 : Nat → PageObs) (fuel1 fuel2 j : Nat)
    (e1 e2 : IterEffect)
    (h1 : (mainRun R t1 p1 obs1 fuel1 seed).effects.get? j = some e1)
    (h2 : (mainRun R t2 p2 obs2 fuel2 seed).effects.get? j = some e2) :
    e1.scrolledDown = e2.scrolledDown ∧ e1.sleepMs = e2.sleepMs ∧
    (e1.scrolledDown, e1.sleepMs) = decisionAt R seed j := by
  have d1 := run_effects_decision R seed t1 p1 obs1 fuel1 0 0 j e1 h1
  have d2 := run_effects_decision R seed t2 p2 obs2 fuel2 0 0 j e2 h2
  rw [Nat.zero_add] at d1 d2
  have hfst := congrArg Prod.fst (d1.trans d2.symm)
  have hsnd := congrArg Prod.snd (d1.trans d2.symm)
  exact ⟨hfst, hsnd, d1⟩

/-- Observations of a page that makes progress every iteration (counter
`i ↦ i + 1`), used to contrast with the stalled page in the C8 witness. -/
def progressObs : Nat → PageObs := fun i => ⟨false, false, i, i + 1, i + 1⟩

/-- `c8_deterministic_pacing` at two concrete runs with the same seed but
different pages, targets and patience ceilings: iteration 1 of both records
direction `down` and pause 1003 ms, as `decisionAt` predicts. -/
theorem c8_witness :
    ((mainRun testRng 5 2 (zeroProgressObs 0 true) 4 0).effects.get? 1
      = some ⟨true, true, 1003⟩) ∧
    ((mainRun testRng 3 5 progressObs 4 0).effects.get? 1
      = some ⟨true, false, 1003⟩) ∧
    ((true : Bool) = true ∧ (1003 : Nat) = 1003 ∧
      ((true : Bool), (1003 : Nat)) = decisionAt testRng 0 1) :=
  ⟨by decide, by decide,
    c8_deterministic_pacing testRng 0 5 2 3 5 (zeroProgressObs 0 true) progressObs 4 4 1
      ⟨true, true, 1003⟩ ⟨true, false, 1003⟩ (by decide) (by decide)⟩

end FlickrScraper
